import Mathlib

/-!
Shallow embedding of `src/engine.py` (functions `train_step`, `test_step`,
`train`) from the pytorch_helper_modules repository, together with theorems
checking the specification's claims about it.

Modelling choices:
* Tensors of per-sample class scores ("logits") are `List (List ℝ)` (one row
  per sample); softmax over a row uses `Real.exp`, the idealisation of the
  floating-point softmax.
* Scalar metrics (losses, accuracies) are `ℚ`: every floating-point value is
  a rational, and the engine only adds and divides them.
* The mutable objects of the Python code (model parameters, training/eval
  mode, device placement, parameter gradients, optimizer state, schedule
  state) are threaded explicitly as an `MState` record.
* The external collaborators (the model's forward function, the loss
  function, backpropagation, the optimizer's update rule) are opaque
  function parameters bundled in `Collab`; data loaders are `List Batch`.
* Python's `ZeroDivisionError` is the `EngErr.zeroDivision` error of an
  `Except` result; a run that raises returns `.error`, one that completes
  returns `.ok`.
* Every externally visible operation appends an `Ev` event to a trace, so
  that ordering claims ("once per batch", "strictly after the optimizer
  update", "never iterates the batch source") are statable.
-/

namespace Engine

/-- Training/evaluation mode of the model (`model.train()` / `model.eval()`). -/
inductive Mode where
  | train
  | eval
deriving DecidableEq, Repr

/-- One element yielded by a data loader: a pair of an input batch `x`
(one row of features per sample) and an aligned label batch `y`. -/
structure Batch where
  x : List (List ℚ)
  y : List ℕ
deriving DecidableEq, Repr

/-- The mutable state the engine touches: model parameters, the model's
mode and device placement, the accumulated parameter gradients
(`none` after `zero_grad`), the optimizer's step counter and the
schedule's step counter. -/
structure MState where
  params : List ℚ
  mode : Mode
  dev : ℕ
  grads : Option (List ℚ)
  optSteps : ℕ
  schedSteps : ℕ
deriving DecidableEq, Repr

/-- The opaque collaborators of the engine: the model's forward pass
(parameters and input batch to logits), the loss function, the gradient of
the loss produced by `loss.backward()`, and the optimizer's parameter
update applied by `optimizer.step()`. -/
structure Collab where
  fwd : List ℚ → List (List ℚ) → List (List ℝ)
  lossFn : List (List ℝ) → List ℕ → ℚ
  gradFn : List ℚ → List (List ℚ) → List ℕ → List ℚ
  optUpd : List ℚ → List ℚ → List ℚ

/-- Errors a run can raise.  `zeroDivision` is Python's `ZeroDivisionError`
(raised by `int / 0`).  `emptyBatchSource` is `Modelled from the spec:` the
`EmptyBatchSource` precondition error named in the specification's error
taxonomy; no code in `src/engine.py` raises it, it exists here only so the
specification's demand can be compared with what the code actually raises. -/
inductive EngErr where
  | zeroDivision
  | emptyBatchSource
deriving DecidableEq, Repr

/-- Observable events, in the order the engine performs them. -/
inductive Ev where
  | pullTrain
  | pullTest
  | modelTrain
  | modelEval
  | forward
  | lossCalc
  | zeroGrad
  | backward
  | optStep
  | schedStep
  | accCalc
  | accumulate
  | progress
deriving DecidableEq, Repr

/-- First-occurrence index of the maximum of a list, accumulator form:
`m` is the current maximum, `i` the index of the next element, `best`
the index of the current maximum. -/
def argmaxAux {α : Type} [LinearOrder α] : List α → α → ℕ → ℕ → ℕ
  | [], _, _, best => best
  | v :: vs, m, i, best =>
    if m < v then argmaxAux vs v (i + 1) i else argmaxAux vs m (i + 1) best

/-- Index of the first maximal element of a list (`torch.argmax` along a
row, ties broken towards the first occurrence); `0` on the empty list. -/
def argmaxIdx {α : Type} [LinearOrder α] : List α → ℕ
  | [] => 0
  | v :: vs => argmaxAux vs v 1 0

/-- Softmax of one row of logits: `torch.softmax(v, dim=1)` restricted to
a single row, idealised over the reals. -/
noncomputable def softmaxRow (row : List ℝ) : List ℝ :=
  row.map (fun v => Real.exp v / (row.map Real.exp).sum)

/-- Row-wise predicted classes:
`torch.argmax(torch.softmax(y_logits, dim=1), dim=1)`. -/
noncomputable def predsOf (logits : List (List ℝ)) : List ℕ :=
  logits.map (fun row => argmaxIdx (softmaxRow row))

/-- Number of positions where label and prediction agree:
`torch.eq(y, y_pred).sum().item()`. -/
def matchCount (y preds : List ℕ) : ℕ :=
  (y.zip preds).countP (fun p => p.1 == p.2)

/-- Per-batch accuracy `torch.eq(y, y_pred).sum().item() / len(y)`;
raises `ZeroDivisionError` when the batch is empty, exactly as the
integer division does in Python. -/
def batchAcc (y preds : List ℕ) : Except EngErr ℚ :=
  if y.length = 0 then .error EngErr.zeroDivision
  else .ok ((matchCount y preds : ℚ) / (y.length : ℚ))

/-- Division of an accumulated metric by a batch count, as Python
evaluates `total / len(loader)`: `ZeroDivisionError` when the loader is
empty (the accumulator is then still the integer `0`). -/
def divMetric (total : ℚ) (n : ℕ) : Except EngErr ℚ :=
  if n = 0 then .error EngErr.zeroDivision else .ok (total / (n : ℚ))

/-- The events of one iteration of the training loop body, in source
order: pull the batch, `model.train()`, forward pass, loss, `zero_grad`,
`backward`, `optimizer.step()`, the schedule step when a schedule was
supplied, accuracy, accumulation. -/
def trainEvBlock (sched : Bool) : List Ev :=
  [Ev.pullTrain, Ev.modelTrain, Ev.forward, Ev.lossCalc, Ev.zeroGrad,
    Ev.backward, Ev.optStep] ++
    (if sched then [Ev.schedStep] else []) ++ [Ev.accCalc, Ev.accumulate]

/-- The events of one iteration of the evaluation loop body, in source
order: pull the batch, `model.eval()`, forward pass, loss, accuracy,
accumulation. -/
def testEvBlock : List Ev :=
  [Ev.pullTest, Ev.modelEval, Ev.forward, Ev.lossCalc, Ev.accCalc, Ev.accumulate]

/-- Body of the `for` loop of `train_step` (engine.py lines 38-54) for one
batch: returns the state after the batch together with the batch's loss,
accuracy and events. -/
noncomputable def trainBatch (c : Collab) (sched : Bool) (s : MState) (b : Batch) :
    Except EngErr (MState × ℚ × ℚ × List Ev) :=
  let s1 : MState := { s with mode := Mode.train }
  let y_logits := c.fwd s1.params b.x
  let loss := c.lossFn y_logits b.y
  let s2 : MState := { s1 with grads := none }
  let g := c.gradFn s2.params b.x b.y
  let s3 : MState := { s2 with grads := some g }
  let s4 : MState := { s3 with params := c.optUpd s3.params g, optSteps := s3.optSteps + 1 }
  let s5 : MState := if sched then { s4 with schedSteps := s4.schedSteps + 1 } else s4
  match batchAcc b.y (predsOf y_logits) with
  | .error e => .error e
  | .ok acc => .ok (s5, loss, acc, trainEvBlock sched)

/-- The `for` loop of `train_step`, accumulating `train_loss`,
`train_acc` and the event trace over the remaining batches. -/
noncomputable def runTrainBatches (c : Collab) (sched : Bool) :
    MState → List Batch → ℚ → ℚ → List Ev → Except EngErr (MState × ℚ × ℚ × List Ev)
  | s, [], lAcc, aAcc, evs => .ok (s, lAcc, aAcc, evs)
  | s, b :: bs, lAcc, aAcc, evs =>
    match trainBatch c sched s b with
    | .error e => .error e
    | .ok (s', l, a, ev) => runTrainBatches c sched s' bs (lAcc + l) (aAcc + a) (evs ++ ev)

/-- `train_step` (engine.py lines 11-59): place the model on the device,
run the loop over all training batches, then average both accumulators by
the number of batches. -/
noncomputable def train_step (c : Collab) (s : MState) (trainloader : List Batch)
    (sched : Bool) (device : ℕ) : Except EngErr (MState × ℚ × ℚ × List Ev) :=
  let s0 : MState := { s with dev := device }
  match runTrainBatches c sched s0 trainloader 0 0 [] with
  | .error e => .error e
  | .ok (s', lSum, aSum, evs) =>
    match divMetric lSum trainloader.length with
    | .error e => .error e
    | .ok l =>
      match divMetric aSum trainloader.length with
      | .error e => .error e
      | .ok a => .ok (s', l, a, evs)

/-- Body of the `for` loop of `test_step` (engine.py lines 83-94) for one
batch: `model.eval()`, then under `inference_mode` a forward pass, loss and
accuracy; no gradient, optimizer or schedule interaction. -/
noncomputable def testBatch (c : Collab) (s : MState) (b : Batch) :
    Except EngErr (MState × ℚ × ℚ × List Ev) :=
  let s1 : MState := { s with mode := Mode.eval }
  let y_logits := c.fwd s1.params b.x
  let loss := c.lossFn y_logits b.y
  match batchAcc b.y (predsOf y_logits) with
  | .error e => .error e
  | .ok acc => .ok (s1, loss, acc, testEvBlock)

/-- The `for` loop of `test_step`, accumulating `test_loss`, `test_acc`
and the event trace over the remaining batches. -/
noncomputable def runTestBatches (c : Collab) :
    MState → List Batch → ℚ → ℚ → List Ev → Except EngErr (MState × ℚ × ℚ × List Ev)
  | s, [], lAcc, aAcc, evs => .ok (s, lAcc, aAcc, evs)
  | s, b :: bs, lAcc, aAcc, evs =>
    match testBatch c s b with
    | .error e => .error e
    | .ok (s', l, a, ev) => runTestBatches c s' bs (lAcc + l) (aAcc + a) (evs ++ ev)

/-- `test_step` (engine.py lines 62-99): place the model on the device,
run the loop over all test batches, then average both accumulators by the
number of batches. -/
noncomputable def test_step (c : Collab) (s : MState) (testloader : List Batch)
    (device : ℕ) : Except EngErr (MState × ℚ × ℚ × List Ev) :=
  let s0 : MState := { s with dev := device }
  match runTestBatches c s0 testloader 0 0 [] with
  | .error e => .error e
  | .ok (s', lSum, aSum, evs) =>
    match divMetric lSum testloader.length with
    | .error e => .error e
    | .ok l =>
      match divMetric aSum testloader.length with
      | .error e => .error e
      | .ok a => .ok (s', l, a, evs)

/-- The result dictionary of `train`: four metric lists, one entry per
completed epoch. -/
structure TrainResult where
  train_loss : List ℚ
  train_acc : List ℚ
  test_loss : List ℚ
  test_acc : List ℚ
deriving DecidableEq, Repr

/-- The epoch loop of `train` (engine.py lines 146-163), recursing on the
number of remaining epochs.  Note the source's call to `train_step` does
not pass `schedular`, so the default `None` applies there no matter what
was passed to `train`; the embedding mirrors this with the literal
`false` below. -/
noncomputable def trainLoop (c : Collab) (trainloader testloader : List Batch)
    (sched : Bool) (device : ℕ) :
    MState → ℕ → Except EngErr (MState × TrainResult × List Ev)
  | s, 0 => .ok (s, ⟨[], [], [], []⟩, [])
  | s, Nat.succ n =>
    match train_step c s trainloader false device with
    | .error e => .error e
    | .ok (s1, trL, trA, ev1) =>
      match test_step c s1 testloader device with
      | .error e => .error e
      | .ok (s2, teL, teA, ev2) =>
        match trainLoop c trainloader testloader sched device s2 n with
        | .error e => .error e
        | .ok (s3, r, ev3) =>
          .ok (s3,
            ⟨trL :: r.train_loss, trA :: r.train_acc,
              teL :: r.test_loss, teA :: r.test_acc⟩,
            ev1 ++ ev2 ++ Ev.progress :: ev3)

/-- `train` (engine.py lines 102-165): the epoch-level training driver. -/
noncomputable def train (c : Collab) (s : MState) (trainloader testloader : List Batch)
    (sched : Bool) (epochs : ℕ) (device : ℕ) :
    Except EngErr (MState × TrainResult × List Ev) :=
  trainLoop c trainloader testloader sched device s epochs

/-- Modelled from the spec: the Result Record as the specification
describes it, "one entry appended per completed epoch, insertion order =
epoch order", built from the list of per-epoch
(train loss, train acc, test loss, test acc) tuples. -/
def resultOfEpochs : List (ℚ × ℚ × ℚ × ℚ) → TrainResult
  | [] => ⟨[], [], [], []⟩
  | e :: es =>
    let r := resultOfEpochs es
    ⟨e.1 :: r.train_loss, e.2.1 :: r.train_acc,
      e.2.2.1 :: r.test_loss, e.2.2.2 :: r.test_acc⟩

/-- Modelled from the spec: the per-batch (loss, accuracy) values of one
optimization pass, in batch order — the values whose plain arithmetic
mean the spec says `train_step` returns. -/
noncomputable def perBatchTrainMetrics (c : Collab) (sched : Bool) :
    MState → List Batch → Except EngErr (List (ℚ × ℚ))
  | _, [] => .ok []
  | s, b :: bs =>
    match trainBatch c sched s b with
    | .error e => .error e
    | .ok (s', l, a, _) =>
      match perBatchTrainMetrics c sched s' bs with
      | .error e => .error e
      | .ok ms => .ok ((l, a) :: ms)

/-- Modelled from the spec: the per-batch (loss, accuracy) values of one
evaluation pass for a given parameter vector, in batch order. -/
noncomputable def perBatchTestMetrics (c : Collab) (p : List ℚ) :
    List Batch → Except EngErr (List (ℚ × ℚ))
  | [] => .ok []
  | b :: bs =>
    match batchAcc b.y (predsOf (c.fwd p b.x)) with
    | .error e => .error e
    | .ok acc =>
      match perBatchTestMetrics c p bs with
      | .error e => .error e
      | .ok ms => .ok ((c.lossFn (c.fwd p b.x) b.y, acc) :: ms)

/-! ### Helper lemmas: argmax and softmax -/

lemma argmaxAux_map {α β : Type} [LinearOrder α] [LinearOrder β] {f : α → β}
    (hf : StrictMono f) (l : List α) :
    ∀ (m : α) (i best : ℕ), argmaxAux (l.map f) (f m) i best = argmaxAux l m i best := by
  induction l with
  | nil => intro m i best; rfl
  | cons v vs ih =>
    intro m i best
    simp only [List.map_cons, argmaxAux, hf.lt_iff_lt]
    by_cases h : m < v
    · simp [h, ih]
    · simp [h, ih]

lemma argmaxIdx_map {α β : Type} [LinearOrder α] [LinearOrder β] {f : α → β}
    (hf : StrictMono f) : ∀ l : List α, argmaxIdx (l.map f) = argmaxIdx l
  | [] => rfl
  | v :: vs => by
    simp only [List.map_cons, argmaxIdx]
    exact argmaxAux_map hf vs v 1 0

lemma argmaxIdx_softmaxRow (row : List ℝ) :
    argmaxIdx (softmaxRow row) = argmaxIdx row := by
  cases row with
  | nil => rfl
  | cons v vs =>
    have hS : 0 < ((v :: vs).map Real.exp).sum := by
      refine List.sum_pos _ ?_ (by simp)
      intro x hx
      obtain ⟨u, _, rfl⟩ := List.mem_map.1 hx
      exact Real.exp_pos u
    have hf : StrictMono (fun x : ℝ => Real.exp x / ((v :: vs).map Real.exp).sum) := by
      intro a b hab
      exact div_lt_div_of_pos_right (Real.exp_lt_exp.2 hab) hS
    exact argmaxIdx_map hf (v :: vs)

/-! ### Helper lemmas: per-batch accuracy -/

lemma matchCount_le_length (y preds : List ℕ) : matchCount y preds ≤ y.length := by
  calc matchCount y preds ≤ (y.zip preds).length := List.countP_le_length _
    _ ≤ y.length := by
        rw [List.length_zip]
        exact min_le_left _ _

lemma batchAcc_ok {y : List ℕ} (preds : List ℕ) (hy : y ≠ []) :
    batchAcc y preds = .ok ((matchCount y preds : ℚ) / (y.length : ℚ)) ∧
      0 ≤ ((matchCount y preds : ℚ) / (y.length : ℚ)) ∧
      ((matchCount y preds : ℚ) / (y.length : ℚ)) ≤ 1 := by
  have hlen : y.length ≠ 0 := by simpa [List.length_eq_zero] using hy
  have hpos : (0 : ℚ) < (y.length : ℚ) := by
    exact_mod_cast Nat.pos_of_ne_zero hlen
  refine ⟨by simp [batchAcc, hlen], div_nonneg (by positivity) hpos.le, ?_⟩
  rw [div_le_one hpos]
  exact_mod_cast matchCount_le_length y preds

/-! ### Helper lemmas: one training batch -/

lemma trainBatch_ok (c : Collab) (sched : Bool) (s : MState) (b : Batch) (hb : b.y ≠ []) :
    ∃ s' l a, trainBatch c sched s b = .ok (s', l, a, trainEvBlock sched) ∧
      s'.optSteps = s.optSteps + 1 ∧
      s'.schedSteps = s.schedSteps + (if sched then 1 else 0) ∧
      s'.dev = s.dev ∧ 0 ≤ a ∧ a ≤ 1 ∧
      ((∀ lg yy, 0 ≤ c.lossFn lg yy) → 0 ≤ l) := by
  obtain ⟨hacc, h0, h1⟩ := batchAcc_ok (y := b.y) (predsOf (c.fwd s.params b.x)) hb
  cases sched with
  | false =>
    exact ⟨⟨c.optUpd s.params (c.gradFn s.params b.x b.y), Mode.train, s.dev,
      some (c.gradFn s.params b.x b.y), s.optSteps + 1, s.schedSteps⟩,
      c.lossFn (c.fwd s.params b.x) b.y,
      (matchCount b.y (predsOf (c.fwd s.params b.x)) : ℚ) / (b.y.length : ℚ),
      by simp [trainBatch, hacc], rfl, by simp, rfl, h0, h1, fun h => h _ _⟩
  | true =>
    exact ⟨⟨c.optUpd s.params (c.gradFn s.params b.x b.y), Mode.train, s.dev,
      some (c.gradFn s.params b.x b.y), s.optSteps + 1, s.schedSteps + 1⟩,
      c.lossFn (c.fwd s.params b.x) b.y,
      (matchCount b.y (predsOf (c.fwd s.params b.x)) : ℚ) / (b.y.length : ℚ),
      by simp [trainBatch, hacc], rfl, by simp, rfl, h0, h1, fun h => h _ _⟩

lemma trainBatch_empty_y (c : Collab) (sched : Bool) (s : MState) (b : Batch)
    (hb : b.y = []) : trainBatch c sched s b = .error EngErr.zeroDivision := by
  simp [trainBatch, batchAcc, hb]

lemma testBatch_empty_y (c : Collab) (s : MState) (b : Batch)
    (hb : b.y = []) : testBatch c s b = .error EngErr.zeroDivision := by
  simp [testBatch, batchAcc, hb]

/-! ### Helper lemmas: the training loop over all batches -/

lemma runTrainBatches_ok (c : Collab) (sched : Bool) (bs : List Batch)
    (hbs : ∀ b ∈ bs, b.y ≠ []) :
    ∀ (s : MState) (l0 a0 : ℚ) (evs : List Ev),
      ∃ ms s',
        perBatchTrainMetrics c sched s bs = .ok ms ∧
        ms.length = bs.length ∧
        runTrainBatches c sched s bs l0 a0 evs =
          .ok (s', l0 + (ms.map Prod.fst).sum, a0 + (ms.map Prod.snd).sum,
            evs ++ (List.replicate bs.length (trainEvBlock sched)).flatten) ∧
        s'.optSteps = s.optSteps + bs.length ∧
        s'.schedSteps = s.schedSteps + (if sched then bs.length else 0) ∧
        s'.dev = s.dev ∧
        (∀ m ∈ ms, 0 ≤ m.2 ∧ m.2 ≤ 1) ∧
        ((∀ lg yy, 0 ≤ c.lossFn lg yy) → ∀ m ∈ ms, 0 ≤ m.1) := by
  induction bs with
  | nil =>
    intro s l0 a0 evs
    exact ⟨[], s, rfl, rfl, by simp [runTrainBatches], by simp, by simp, rfl,
      by simp, by simp⟩
  | cons b bs ih =>
    intro s l0 a0 evs
    obtain ⟨s1, l, a, heq, hopt, hsch, hdev, ha0, ha1, hl⟩ :=
      trainBatch_ok c sched s b (hbs b (by simp))
    obtain ⟨ms, s', hms, hlen, hrun, hopt', hsch', hdev', hbnd, hloss⟩ :=
      ih (fun b' hb' => hbs b' (List.mem_cons_of_mem _ hb')) s1 (l0 + l) (a0 + a)
        (evs ++ trainEvBlock sched)
    refine ⟨(l, a) :: ms, s', ?_, ?_, ?_, ?_, ?_, ?_, ?_, ?_⟩
    · simp [perBatchTrainMetrics, heq, hms]
    · simp [hlen]
    · simp only [runTrainBatches, heq]
      rw [hrun]
      simp [add_assoc, List.replicate_succ]
    · rw [hopt', hopt]
      simp only [List.length_cons]
      omega
    · rw [hsch', hsch]
      cases sched <;> (simp; try omega)
    · rw [hdev', hdev]
    · intro m hm
      rcases List.mem_cons.1 hm with h | h
      · subst h; exact ⟨ha0, ha1⟩
      · exact hbnd m h
    · intro hL m hm
      rcases List.mem_cons.1 hm with h | h
      · subst h; exact hl hL
      · exact hloss hL m h

/-! ### Helper lemmas: the evaluation loop over all batches -/

lemma runTestBatches_ok (c : Collab) (bs : List Batch) (hbs : ∀ b ∈ bs, b.y ≠ []) :
    ∀ (p : List ℚ),
      ∃ ms,
        perBatchTestMetrics c p bs = .ok ms ∧
        ms.length = bs.length ∧
        (∀ (t : MState) (l0 a0 : ℚ) (evs : List Ev), t.params = p →
          runTestBatches c t bs l0 a0 evs =
            .ok ((if bs.isEmpty then t else { t with mode := Mode.eval }),
              l0 + (ms.map Prod.fst).sum, a0 + (ms.map Prod.snd).sum,
              evs ++ (List.replicate bs.length testEvBlock).flatten)) ∧
        (∀ m ∈ ms, 0 ≤ m.2 ∧ m.2 ≤ 1) ∧
        ((∀ lg yy, 0 ≤ c.lossFn lg yy) → ∀ m ∈ ms, 0 ≤ m.1) := by
  induction bs with
  | nil =>
    intro p
    refine ⟨[], rfl, rfl, ?_, by simp, by simp⟩
    intro t l0 a0 evs _
    simp [runTestBatches]
  | cons b bs ih =>
    intro p
    obtain ⟨hacc, h0, h1⟩ :=
      batchAcc_ok (y := b.y) (predsOf (c.fwd p b.x)) (hbs b (by simp))
    obtain ⟨ms, hms, hlen, hrun, hbnd, hloss⟩ :=
      ih (fun b' hb' => hbs b' (List.mem_cons_of_mem _ hb')) p
    refine ⟨(c.lossFn (c.fwd p b.x) b.y,
        (matchCount b.y (predsOf (c.fwd p b.x)) : ℚ) / (b.y.length : ℚ)) :: ms,
      ?_, by simp [hlen], ?_, ?_, ?_⟩
    · simp [perBatchTestMetrics, hacc, hms]
    · intro t l0 a0 evs ht
      subst ht
      have hrun' := hrun { t with mode := Mode.eval }
        (l0 + c.lossFn (c.fwd t.params b.x) b.y)
        (a0 + (matchCount b.y (predsOf (c.fwd t.params b.x)) : ℚ) / (b.y.length : ℚ))
        (evs ++ testEvBlock) rfl
      simp only [runTestBatches, testBatch, hacc]
      rw [hrun']
      by_cases hb2 : bs.isEmpty
      · simp [hb2, add_assoc, List.replicate_succ]
      · simp [hb2, add_assoc, List.replicate_succ]
    · intro m hm
      rcases List.mem_cons.1 hm with h | h
      · subst h; exact ⟨h0, h1⟩
      · exact hbnd m h
    · intro hL m hm
      rcases List.mem_cons.1 hm with h | h
      · subst h; exact hL _ _
      · exact hloss hL m h

/-! ### Helper lemmas: the step functions -/

lemma train_step_ok (c : Collab) (s : MState) (trainloader : List Batch)
    (sched : Bool) (device : ℕ)
    (h1 : trainloader ≠ []) (h2 : ∀ b ∈ trainloader, b.y ≠ []) :
    ∃ ms s',
      perBatchTrainMetrics c sched { s with dev := device } trainloader = .ok ms ∧
      ms.length = trainloader.length ∧
      train_step c s trainloader sched device =
        .ok (s', (ms.map Prod.fst).sum / (trainloader.length : ℚ),
          (ms.map Prod.snd).sum / (trainloader.length : ℚ),
          (List.replicate trainloader.length (trainEvBlock sched)).flatten) ∧
      s'.optSteps = s.optSteps + trainloader.length ∧
      s'.schedSteps = s.schedSteps + (if sched then trainloader.length else 0) ∧
      s'.dev = device ∧
      (∀ m ∈ ms, 0 ≤ m.2 ∧ m.2 ≤ 1) ∧
      ((∀ lg yy, 0 ≤ c.lossFn lg yy) → ∀ m ∈ ms, 0 ≤ m.1) := by
  obtain ⟨ms, s', hms, hlen, hrun, hopt, hsch, hdev, hbnd, hloss⟩ :=
    runTrainBatches_ok c sched trainloader h2 { s with dev := device } 0 0 []
  have hn : trainloader.length ≠ 0 := by simpa [List.length_eq_zero] using h1
  refine ⟨ms, s', hms, hlen, ?_, by simpa using hopt, by simpa using hsch,
    by simpa using hdev, hbnd, hloss⟩
  simp only [train_step]
  rw [hrun]
  simp [divMetric, hn]

lemma test_step_ok (c : Collab) (s : MState) (testloader : List Batch) (device : ℕ)
    (h1 : testloader ≠ []) (h2 : ∀ b ∈ testloader, b.y ≠ []) :
    ∃ ms,
      perBatchTestMetrics c s.params testloader = .ok ms ∧
      ms.length = testloader.length ∧
      test_step c s testloader device =
        .ok ({ s with dev := device, mode := Mode.eval },
          (ms.map Prod.fst).sum / (testloader.length : ℚ),
          (ms.map Prod.snd).sum / (testloader.length : ℚ),
          (List.replicate testloader.length testEvBlock).flatten) ∧
      (∀ m ∈ ms, 0 ≤ m.2 ∧ m.2 ≤ 1) ∧
      ((∀ lg yy, 0 ≤ c.lossFn lg yy) → ∀ m ∈ ms, 0 ≤ m.1) := by
  obtain ⟨ms, hms, hlen, hrun, hbnd, hloss⟩ := runTestBatches_ok c testloader h2 s.params
  have hn : testloader.length ≠ 0 := by simpa [List.length_eq_zero] using h1
  have hne : testloader.isEmpty = false := by
    simpa [List.isEmpty_iff] using h1
  refine ⟨ms, hms, hlen, ?_, hbnd, hloss⟩
  simp only [test_step]
  rw [hrun { s with dev := device } 0 0 [] rfl]
  simp [divMetric, hn, hne]

lemma runTrainBatches_error_of_empty_batch (c : Collab) (sched : Bool)
    (b : Batch) (hb : b.y = []) (pre : List Batch) :
    ∀ (post : List Batch), (∀ b' ∈ pre, b'.y ≠ []) →
      ∀ (s : MState) (l0 a0 : ℚ) (evs : List Ev),
        runTrainBatches c sched s (pre ++ b :: post) l0 a0 evs =
          .error EngErr.zeroDivision := by
  induction pre with
  | nil =>
    intro post _ s l0 a0 evs
    simp [runTrainBatches, trainBatch_empty_y c sched s b hb]
  | cons q pre ih =>
    intro post hpre s l0 a0 evs
    obtain ⟨s1, l, a, heq, -, -, -, -, -, -⟩ :=
      trainBatch_ok c sched s q (hpre q (by simp))
    simp only [List.cons_append, runTrainBatches, heq]
    exact ih post (fun b' hb' => hpre b' (List.mem_cons_of_mem _ hb')) s1 _ _ _

lemma runTestBatches_error_of_empty_batch (c : Collab)
    (b : Batch) (hb : b.y = []) (pre : List Batch) :
    ∀ (post : List Batch), (∀ b' ∈ pre, b'.y ≠ []) →
      ∀ (s : MState) (l0 a0 : ℚ) (evs : List Ev),
        runTestBatches c s (pre ++ b :: post) l0 a0 evs =
          .error EngErr.zeroDivision := by
  induction pre with
  | nil =>
    intro post _ s l0 a0 evs
    simp [runTestBatches, testBatch_empty_y c s b hb]
  | cons q pre ih =>
    intro post hpre s l0 a0 evs
    have hq : q.y ≠ [] := hpre q (by simp)
    obtain ⟨hacc, -, -⟩ := batchAcc_ok (y := q.y) (predsOf (c.fwd s.params q.x)) hq
    simp only [List.cons_append, runTestBatches, testBatch, hacc]
    exact ih post (fun b' hb' => hpre b' (List.mem_cons_of_mem _ hb')) _ _ _ _

/-! ### Helper lemmas: the epoch driver -/

lemma not_mem_flatten_replicate {α : Type} (x : α) (n : ℕ) (l : List α) (h : x ∉ l) :
    x ∉ (List.replicate n l).flatten := by
  intro hx
  rcases List.mem_flatten.1 hx with ⟨t, ht, hxt⟩
  rw [List.eq_of_mem_replicate ht] at hxt
  exact h hxt

lemma schedStep_not_mem_trainEvBlock_false : Ev.schedStep ∉ trainEvBlock false := by
  decide

lemma schedStep_not_mem_testEvBlock : Ev.schedStep ∉ testEvBlock := by
  decide

lemma trainLoop_ok (c : Collab) (tl te : List Batch) (sched : Bool) (device : ℕ)
    (h1 : tl ≠ []) (h2 : te ≠ []) (h3 : ∀ b ∈ tl, b.y ≠ []) (h4 : ∀ b ∈ te, b.y ≠ []) :
    ∀ (e : ℕ) (s : MState),
      ∃ es s' evs,
        trainLoop c tl te sched device s e = .ok (s', resultOfEpochs es, evs) ∧
        es.length = e ∧
        s'.schedSteps = s.schedSteps ∧
        Ev.schedStep ∉ evs := by
  intro e
  induction e with
  | zero => intro s; exact ⟨[], s, [], rfl, rfl, rfl, by simp⟩
  | succ n ih =>
    intro s
    obtain ⟨ms1, s1, -, -, htr, -, hsch1, -, -, -⟩ :=
      train_step_ok c s tl false device h1 h3
    obtain ⟨ms2, -, -, hte, -, -⟩ := test_step_ok c s1 te device h2 h4
    obtain ⟨es, s3, ev3, hloop, hlen, hsch3, hmem⟩ :=
      ih { s1 with dev := device, mode := Mode.eval }
    refine ⟨((ms1.map Prod.fst).sum / (tl.length : ℚ),
        (ms1.map Prod.snd).sum / (tl.length : ℚ),
        (ms2.map Prod.fst).sum / (te.length : ℚ),
        (ms2.map Prod.snd).sum / (te.length : ℚ)) :: es,
      s3,
      (List.replicate tl.length (trainEvBlock false)).flatten ++
        (List.replicate te.length testEvBlock).flatten ++ Ev.progress :: ev3,
      ?_, by simp [hlen], ?_, ?_⟩
    · simp only [trainLoop, htr, hte, hloop]
      simp [resultOfEpochs]
    · rw [hsch3] at *
      simpa using hsch1
    · intro hx
      rcases List.mem_append.1 hx with hx' | hx'
      · rcases List.mem_append.1 hx' with hx'' | hx''
        · exact not_mem_flatten_replicate _ _ _ schedStep_not_mem_trainEvBlock_false hx''
        · exact not_mem_flatten_replicate _ _ _ schedStep_not_mem_testEvBlock hx''
      · rcases List.mem_cons.1 hx' with hx'' | hx''
        · exact absurd hx'' (by decide)
        · exact hmem hx''

lemma resultOfEpochs_lengths (es : List (ℚ × ℚ × ℚ × ℚ)) :
    (resultOfEpochs es).train_loss.length = es.length ∧
    (resultOfEpochs es).train_acc.length = es.length ∧
    (resultOfEpochs es).test_loss.length = es.length ∧
    (resultOfEpochs es).test_acc.length = es.length := by
  induction es with
  | nil => simp [resultOfEpochs]
  | cons e es ih => simp [resultOfEpochs, ih.1, ih.2.1, ih.2.2.1, ih.2.2.2]

lemma mean_bounds {ms : List (ℚ × ℚ)} {n : ℕ} (hn : n ≠ 0) (hlen : ms.length = n)
    (hbnd : ∀ m ∈ ms, 0 ≤ m.2 ∧ m.2 ≤ 1) :
    0 ≤ (ms.map Prod.snd).sum / (n : ℚ) ∧ (ms.map Prod.snd).sum / (n : ℚ) ≤ 1 := by
  have hpos : (0 : ℚ) < (n : ℚ) := by exact_mod_cast Nat.pos_of_ne_zero hn
  have hs0 : 0 ≤ (ms.map Prod.snd).sum := by
    refine List.sum_nonneg ?_
    intro x hx
    obtain ⟨m, hm, rfl⟩ := List.mem_map.1 hx
    exact (hbnd m hm).1
  have hs1 : (ms.map Prod.snd).sum ≤ (n : ℚ) := by
    have h := List.sum_le_card_nsmul (ms.map Prod.snd) 1 ?_
    · simpa [List.length_map, hlen, nsmul_eq_mul] using h
    · intro x hx
      obtain ⟨m, hm, rfl⟩ := List.mem_map.1 hx
      exact (hbnd m hm).2
  exact ⟨div_nonneg hs0 hpos.le, by rw [div_le_one hpos]; exact hs1⟩

lemma loss_mean_nonneg {ms : List (ℚ × ℚ)} (n : ℕ) (hls : ∀ m ∈ ms, 0 ≤ m.1) :
    0 ≤ (ms.map Prod.fst).sum / (n : ℚ) := by
  refine div_nonneg ?_ (Nat.cast_nonneg n)
  refine List.sum_nonneg ?_
  intro x hx
  obtain ⟨m, hm, rfl⟩ := List.mem_map.1 hx
  exact hls m hm

/-! ### Concrete instances used by the closed witnesses -/

/-- A concrete one-class collaborator: the forward pass yields the single
logit row `[0]` for every input, the loss is the constant `2`, the
gradient is `[0]` and the optimizer update leaves parameters unchanged. -/
noncomputable def cEx : Collab where
  fwd := fun _ _ => [[0]]
  lossFn := fun _ _ => 2
  gradFn := fun _ _ _ => [0]
  optUpd := fun p _ => p

/-- A concrete initial state. -/
def sEx : MState := ⟨[0], Mode.train, 0, none, 0, 0⟩

/-- A concrete one-sample batch with label `0`. -/
def bEx : Batch := ⟨[[0]], [0]⟩

/-- A concrete empty batch (zero samples). -/
def bEmptyEx : Batch := ⟨[], []⟩

/-! ### Claims -/

/-- C1 (code bug): the training driver `train` accepts a schedule but never
forwards it to `train_step` (the call at engine.py lines 147-151 omits
`schedular`), so on every completed call to the driver with a schedule
supplied the schedule's step counter is unchanged and no schedule-step
event ever occurs — not advanced once per training batch as claimed. -/
theorem C1_driver_never_advances_schedule (c : Collab) (s : MState)
    (tl te : List Batch) (e device : ℕ)
    (h1 : tl ≠ []) (h2 : te ≠ []) (h3 : ∀ b ∈ tl, b.y ≠ []) (h4 : ∀ b ∈ te, b.y ≠ []) :
    ∃ s' r evs,
      train c s tl te true e device = .ok (s', r, evs) ∧
      s'.schedSteps = s.schedSteps ∧
      Ev.schedStep ∉ evs := by
  obtain ⟨es, s', evs, hloop, -, hsch, hmem⟩ :=
    trainLoop_ok c tl te true device h1 h2 h3 h4 e s
  exact ⟨s', resultOfEpochs es, evs, hloop, hsch, hmem⟩

/-- C2 (amended): on a batch source yielding zero batches, `train_step`
and `test_step` raise `ZeroDivisionError` when the average itself is
computed (the zero-initialised accumulator divided by the zero batch
count); the error propagates, so the call never returns a value — in
particular never a `(NaN, NaN)` pair — but it is the averaging division
that fails, not a dedicated precondition check before it. -/
theorem C2_empty_source_raises_at_average (c : Collab) (s : MState)
    (sched : Bool) (device : ℕ) :
    train_step c s [] sched device = .error EngErr.zeroDivision ∧
    test_step c s [] device = .error EngErr.zeroDivision ∧
    ∀ out : MState × ℚ × ℚ × List Ev, train_step c s [] sched device ≠ .ok out := by
  refine ⟨rfl, rfl, fun out h => ?_⟩
  exact Except.noConfusion
    ((rfl : train_step c s [] sched device = .error EngErr.zeroDivision).symm.trans h)

/-- C2 (counterexample): at the concrete empty train batch source the
error actually raised is the `ZeroDivisionError` of the average, not the
`EmptyBatchSource` precondition report the claim demands. -/
theorem C2_counterexample :
    train_step cEx sEx [] false 0 = .error EngErr.zeroDivision ∧
    (Except.error EngErr.zeroDivision :
        Except EngErr (MState × ℚ × ℚ × List Ev)) ≠
      .error EngErr.emptyBatchSource := by
  refine ⟨rfl, fun h => ?_⟩
  injection h with h'
  cases h'

/-- C3: a completed call to the training driver returns a result record
built from exactly one (train loss, train acc, test loss, test acc)
tuple per epoch, in epoch order, so all four sequences have length
exactly `e`. -/
theorem C3_result_record_lengths (c : Collab) (s : MState) (tl te : List Batch)
    (sched : Bool) (e device : ℕ)
    (h1 : tl ≠ []) (h2 : te ≠ []) (h3 : ∀ b ∈ tl, b.y ≠ []) (h4 : ∀ b ∈ te, b.y ≠ []) :
    ∃ s' es evs,
      train c s tl te sched e device = .ok (s', resultOfEpochs es, evs) ∧
      es.length = e ∧
      (resultOfEpochs es).train_loss.length = e ∧
      (resultOfEpochs es).train_acc.length = e ∧
      (resultOfEpochs es).test_loss.length = e ∧
      (resultOfEpochs es).test_acc.length = e := by
  obtain ⟨es, s', evs, hloop, hlen, -, -⟩ :=
    trainLoop_ok c tl te sched device h1 h2 h3 h4 e s
  obtain ⟨q1, q2, q3, q4⟩ := resultOfEpochs_lengths es
  exact ⟨s', es, evs, hloop, hlen, by rw [q1, hlen], by rw [q2, hlen],
    by rw [q3, hlen], by rw [q4, hlen]⟩

/-- C4: on a nonempty batch source both step functions return exactly the
unweighted arithmetic mean of the per-batch values: the sum of the
per-batch losses (resp. accuracies) divided by the number of batches. -/
theorem C4_returns_unweighted_mean (c : Collab) (s : MState) (loader : List Batch)
    (sched : Bool) (device : ℕ)
    (h1 : loader ≠ []) (h2 : ∀ b ∈ loader, b.y ≠ []) :
    (∃ ms s' evs,
      perBatchTrainMetrics c sched { s with dev := device } loader = .ok ms ∧
      ms.length = loader.length ∧
      train_step c s loader sched device =
        .ok (s', (ms.map Prod.fst).sum / (loader.length : ℚ),
          (ms.map Prod.snd).sum / (loader.length : ℚ), evs)) ∧
    (∃ ms s' evs,
      perBatchTestMetrics c s.params loader = .ok ms ∧
      ms.length = loader.length ∧
      test_step c s loader device =
        .ok (s', (ms.map Prod.fst).sum / (loader.length : ℚ),
          (ms.map Prod.snd).sum / (loader.length : ℚ), evs)) := by
  constructor
  · obtain ⟨ms, s', hms, hlen, hstep, -, -, -, -, -⟩ :=
      train_step_ok c s loader sched device h1 h2
    exact ⟨ms, s', _, hms, hlen, hstep⟩
  · obtain ⟨ms, hms, hlen, hstep, -, -⟩ := test_step_ok c s loader device h1 h2
    exact ⟨ms, _, _, hms, hlen, hstep⟩

/-- C5: per training batch the operations happen in exactly the order
pull, `model.train()`, forward, loss, gradient clearing, backpropagation,
optimizer update, schedule advance (only when a schedule is supplied,
strictly after the optimizer update), accuracy
(`count(argmax(softmax(logits))=labels) / batch_size`), accumulation; and
after `n` batches the optimizer has stepped exactly `n` times. -/
theorem C5_per_batch_operation_order (c : Collab) (s : MState) (loader : List Batch)
    (sched : Bool) (device : ℕ)
    (h1 : loader ≠ []) (h2 : ∀ b ∈ loader, b.y ≠ []) :
    (∃ s' l a,
      train_step c s loader sched device =
        .ok (s', l, a, (List.replicate loader.length (trainEvBlock sched)).flatten) ∧
      s'.optSteps = s.optSteps + loader.length) ∧
    trainEvBlock true = [Ev.pullTrain, Ev.modelTrain, Ev.forward, Ev.lossCalc,
      Ev.zeroGrad, Ev.backward, Ev.optStep, Ev.schedStep, Ev.accCalc, Ev.accumulate] ∧
    trainEvBlock false = [Ev.pullTrain, Ev.modelTrain, Ev.forward, Ev.lossCalc,
      Ev.zeroGrad, Ev.backward, Ev.optStep, Ev.accCalc, Ev.accumulate] ∧
    (∀ (yy preds : List ℕ), yy ≠ [] →
      batchAcc yy preds = .ok ((matchCount yy preds : ℚ) / (yy.length : ℚ))) := by
  obtain ⟨ms, s', -, -, hstep, hopt, -, -, -, -⟩ :=
    train_step_ok c s loader sched device h1 h2
  exact ⟨⟨s', _, _, hstep, hopt⟩, rfl, rfl,
    fun yy preds hy => (batchAcc_ok preds hy).1⟩

/-- C6: `test_step` leaves the model parameters, the gradients, the
optimizer step counter and the schedule step counter untouched, and a
second run from the returned state yields the bit-identical result. -/
theorem C6_test_step_pure (c : Collab) (s : MState) (te : List Batch) (device : ℕ)
    (h1 : te ≠ []) (h2 : ∀ b ∈ te, b.y ≠ []) :
    ∃ s' l a evs,
      test_step c s te device = .ok (s', l, a, evs) ∧
      s'.params = s.params ∧ s'.grads = s.grads ∧
      s'.optSteps = s.optSteps ∧ s'.schedSteps = s.schedSteps ∧
      test_step c s' te device = .ok (s', l, a, evs) := by
  obtain ⟨ms, hms, hlen, hrun, -, -⟩ := runTestBatches_ok c te h2 s.params
  have hn : te.length ≠ 0 := by simpa [List.length_eq_zero] using h1
  have hne : te.isEmpty = false := by simpa [List.isEmpty_iff] using h1
  refine ⟨{ s with dev := device, mode := Mode.eval },
    (ms.map Prod.fst).sum / (te.length : ℚ), (ms.map Prod.snd).sum / (te.length : ℚ),
    (List.replicate te.length testEvBlock).flatten, ?_, rfl, rfl, rfl, rfl, ?_⟩
  · simp only [test_step]
    rw [hrun { s with dev := device } 0 0 [] rfl]
    simp [divMetric, hn, hne]
  · simp only [test_step]
    rw [hrun ⟨s.params, Mode.eval, device, s.grads, s.optSteps, s.schedSteps⟩ 0 0 [] rfl]
    simp [divMetric, hn, hne]

/-- C7: zero epochs is valid: the driver immediately returns the empty
result record with an empty event trace — neither batch source is
pulled from and no progress is reported. -/
theorem C7_zero_epochs_empty_result (c : Collab) (s : MState) (tl te : List Batch)
    (sched : Bool) (device : ℕ) :
    train c s tl te sched 0 device = .ok (s, ⟨[], [], [], []⟩, []) := rfl

/-- C8: on a nonempty batch source of nonempty batches, both step
functions return a mean accuracy in `[0, 1]` — unconditionally — and a
mean loss `≥ 0` whenever the loss function is nonnegative. -/
theorem C8_metric_ranges (c : Collab) (s : MState) (loader : List Batch)
    (sched : Bool) (device : ℕ)
    (h1 : loader ≠ []) (h2 : ∀ b ∈ loader, b.y ≠ []) :
    (∃ s' l a evs, train_step c s loader sched device = .ok (s', l, a, evs) ∧
      0 ≤ a ∧ a ≤ 1 ∧ ((∀ lg yy, 0 ≤ c.lossFn lg yy) → 0 ≤ l)) ∧
    (∃ s' l a evs, test_step c s loader device = .ok (s', l, a, evs) ∧
      0 ≤ a ∧ a ≤ 1 ∧ ((∀ lg yy, 0 ≤ c.lossFn lg yy) → 0 ≤ l)) := by
  have hn : loader.length ≠ 0 := by simpa [List.length_eq_zero] using h1
  constructor
  · obtain ⟨ms, s', -, hlen, hstep, -, -, -, hbnd, hloss⟩ :=
      train_step_ok c s loader sched device h1 h2
    obtain ⟨q0, q1⟩ := mean_bounds hn hlen hbnd
    exact ⟨s', _, _, _, hstep, q0, q1,
      fun hL => loss_mean_nonneg loader.length (hloss hL)⟩
  · obtain ⟨ms, -, hlen, hstep, hbnd, hloss⟩ := test_step_ok c s loader device h1 h2
    obtain ⟨q0, q1⟩ := mean_bounds hn hlen hbnd
    exact ⟨_, _, _, _, hstep, q0, q1,
      fun hL => loss_mean_nonneg loader.length (hloss hL)⟩

/-- C9: softmax along a row is a strictly monotone transformation, so the
predicted classes `argmax(softmax(logits))` coincide with `argmax(logits)`
under the same first-occurrence tie-breaking, and the accuracy computed
from them is unchanged. -/
theorem C9_softmax_preserves_argmax (logits : List (List ℝ)) (y : List ℕ) :
    predsOf logits = logits.map argmaxIdx ∧
    batchAcc y (predsOf logits) = batchAcc y (logits.map argmaxIdx) := by
  have h : predsOf logits = logits.map argmaxIdx := by
    simp only [predsOf]
    exact List.map_congr_left (fun row _ => argmaxIdx_softmaxRow row)
  exact ⟨h, by rw [h]⟩

/-- C10: a batch with an empty label sequence makes the per-batch accuracy
division raise `ZeroDivisionError`, which propagates out of both step
functions: neither returns a value. -/
theorem C10_empty_batch_raises (c : Collab) (s : MState) (sched : Bool) (device : ℕ)
    (pre post : List Batch) (b : Batch)
    (hb : b.y = []) (hpre : ∀ b' ∈ pre, b'.y ≠ []) :
    train_step c s (pre ++ b :: post) sched device = .error EngErr.zeroDivision ∧
    test_step c s (pre ++ b :: post) device = .error EngErr.zeroDivision := by
  constructor
  · simp only [train_step]
    rw [runTrainBatches_error_of_empty_batch c sched b hb pre post hpre _ 0 0 []]
  · simp only [test_step]
    rw [runTestBatches_error_of_empty_batch c b hb pre post hpre _ 0 0 []]

/-! ### Witnesses: each hypothesis-bearing claim theorem applied at a
concrete input -/

/-- Witness for C1: one epoch over one-batch loaders with a schedule
supplied to the driver. -/
theorem C1_driver_never_advances_schedule_w :
    (([bEx] : List Batch) ≠ [] ∧ (∀ b ∈ [bEx], b.y ≠ [])) ∧
    ∃ s' r evs,
      train cEx sEx [bEx] [bEx] true 1 0 = .ok (s', r, evs) ∧
      s'.schedSteps = sEx.schedSteps ∧
      Ev.schedStep ∉ evs :=
  ⟨⟨by simp, by simp [bEx]⟩,
    C1_driver_never_advances_schedule cEx sEx [bEx] [bEx] 1 0
      (by simp) (by simp) (by simp [bEx]) (by simp [bEx])⟩

/-- Witness for C3: two epochs over one-batch loaders. -/
theorem C3_result_record_lengths_w :
    (([bEx] : List Batch) ≠ [] ∧ (∀ b ∈ [bEx], b.y ≠ [])) ∧
    ∃ s' es evs,
      train cEx sEx [bEx] [bEx] false 2 0 = .ok (s', resultOfEpochs es, evs) ∧
      es.length = 2 ∧
      (resultOfEpochs es).train_loss.length = 2 ∧
      (resultOfEpochs es).train_acc.length = 2 ∧
      (resultOfEpochs es).test_loss.length = 2 ∧
      (resultOfEpochs es).test_acc.length = 2 :=
  ⟨⟨by simp, by simp [bEx]⟩,
    C3_result_record_lengths cEx sEx [bEx] [bEx] false 2 0
      (by simp) (by simp) (by simp [bEx]) (by simp [bEx])⟩

/-- Witness for C4: a one-batch loader. -/
theorem C4_returns_unweighted_mean_w :
    (([bEx] : List Batch) ≠ [] ∧ (∀ b ∈ [bEx], b.y ≠ [])) ∧
    ((∃ ms s' evs,
      perBatchTrainMetrics cEx false { sEx with dev := 0 } [bEx] = .ok ms ∧
      ms.length = ([bEx] : List Batch).length ∧
      train_step cEx sEx [bEx] false 0 =
        .ok (s', (ms.map Prod.fst).sum / (([bEx] : List Batch).length : ℚ),
          (ms.map Prod.snd).sum / (([bEx] : List Batch).length : ℚ), evs)) ∧
    (∃ ms s' evs,
      perBatchTestMetrics cEx sEx.params [bEx] = .ok ms ∧
      ms.length = ([bEx] : List Batch).length ∧
      test_step cEx sEx [bEx] 0 =
        .ok (s', (ms.map Prod.fst).sum / (([bEx] : List Batch).length : ℚ),
          (ms.map Prod.snd).sum / (([bEx] : List Batch).length : ℚ), evs))) :=
  ⟨⟨by simp, by simp [bEx]⟩,
    C4_returns_unweighted_mean cEx sEx [bEx] false 0 (by simp) (by simp [bEx])⟩

/-- Witness for C5: a one-batch loader with a schedule supplied to
`train_step` directly. -/
theorem C5_per_batch_operation_order_w :
    (([bEx] : List Batch) ≠ [] ∧ (∀ b ∈ [bEx], b.y ≠ [])) ∧
    ((∃ s' l a,
      train_step cEx sEx [bEx] true 0 =
        .ok (s', l, a,
          (List.replicate ([bEx] : List Batch).length (trainEvBlock true)).flatten) ∧
      s'.optSteps = sEx.optSteps + ([bEx] : List Batch).length) ∧
    trainEvBlock true = [Ev.pullTrain, Ev.modelTrain, Ev.forward, Ev.lossCalc,
      Ev.zeroGrad, Ev.backward, Ev.optStep, Ev.schedStep, Ev.accCalc, Ev.accumulate] ∧
    trainEvBlock false = [Ev.pullTrain, Ev.modelTrain, Ev.forward, Ev.lossCalc,
      Ev.zeroGrad, Ev.backward, Ev.optStep, Ev.accCalc, Ev.accumulate] ∧
    (∀ (yy preds : List ℕ), yy ≠ [] →
      batchAcc yy preds = .ok ((matchCount yy preds : ℚ) / (yy.length : ℚ)))) :=
  ⟨⟨by simp, by simp [bEx]⟩,
    C5_per_batch_operation_order cEx sEx [bEx] true 0 (by simp) (by simp [bEx])⟩

/-- Witness for C6: a one-batch test loader. -/
theorem C6_test_step_pure_w :
    (([bEx] : List Batch) ≠ [] ∧ (∀ b ∈ [bEx], b.y ≠ [])) ∧
    ∃ s' l a evs,
      test_step cEx sEx [bEx] 0 = .ok (s', l, a, evs) ∧
      s'.params = sEx.params ∧ s'.grads = sEx.grads ∧
      s'.optSteps = sEx.optSteps ∧ s'.schedSteps = sEx.schedSteps ∧
      test_step cEx s' [bEx] 0 = .ok (s', l, a, evs) :=
  ⟨⟨by simp, by simp [bEx]⟩,
    C6_test_step_pure cEx sEx [bEx] 0 (by simp) (by simp [bEx])⟩

/-- Witness for C8: a one-batch loader. -/
theorem C8_metric_ranges_w :
    (([bEx] : List Batch) ≠ [] ∧ (∀ b ∈ [bEx], b.y ≠ [])) ∧
    ((∃ s' l a evs, train_step cEx sEx [bEx] false 0 = .ok (s', l, a, evs) ∧
      0 ≤ a ∧ a ≤ 1 ∧ ((∀ lg yy, 0 ≤ cEx.lossFn lg yy) → 0 ≤ l)) ∧
    (∃ s' l a evs, test_step cEx sEx [bEx] 0 = .ok (s', l, a, evs) ∧
      0 ≤ a ∧ a ≤ 1 ∧ ((∀ lg yy, 0 ≤ cEx.lossFn lg yy) → 0 ≤ l))) :=
  ⟨⟨by simp, by simp [bEx]⟩,
    C8_metric_ranges cEx sEx [bEx] false 0 (by simp) (by simp [bEx])⟩

/-- Witness for C10: a loader consisting of exactly one empty batch. -/
theorem C10_empty_batch_raises_w :
    (bEmptyEx.y = [] ∧ (∀ b' ∈ ([] : List Batch), b'.y ≠ [])) ∧
    (train_step cEx sEx [bEmptyEx] false 0 = .error EngErr.zeroDivision ∧
      test_step cEx sEx [bEmptyEx] 0 = .error EngErr.zeroDivision) :=
  ⟨⟨rfl, by simp⟩,
    C10_empty_batch_raises cEx sEx false 0 [] [] bEmptyEx rfl (by simp)⟩

end Engine
